import Mathlib

/-!
Shallow embedding of `ssh2.py` (class `SSH2`): an interactive SSH session
driver for H3C switches together with the parser for the output of the
`dis mac-address` command.  Python strings and byte strings are both
modelled as `String`; Python exceptions are modelled by `Except PyErr`.
-/

namespace SSH2

/-- The Python exception kinds raised by the modelled code paths:
`OSError('The output of the command is not complete.')`, `IndexError`
(out-of-range list index / `pop` from an empty list), `ValueError`
(failing `int(...)`), and `AttributeError` (attribute access on `None`). -/
inductive PyErr where
  | incompleteOutput
  | indexError
  | valueError
  | attributeError
  deriving DecidableEq, Repr

/-- `xs` begins with `pat`, on character lists. -/
def listStartsWith : List Char → List Char → Bool
  | _, [] => true
  | [], _ :: _ => false
  | c :: cs, p :: ps => c == p && listStartsWith cs ps

/-- Python `s.startswith(pat)`.  (Implemented on the character list so that
concrete runs reduce inside the kernel.) -/
def startsWithStr (s pat : String) : Bool := listStartsWith s.toList pat.toList

/-- Fuel-driven worker for splitting on a non-empty separator: scan left to
right, cut at each occurrence of `sep`.  The fuel only bounds the number of
recursion steps; each step consumes at least one character, so fuel equal
to the length of the list is always enough. -/
def splitOnCharsF (sep : List Char) : Nat → List Char → List (List Char)
  | _, [] => [[]]
  | 0, cs => [cs]
  | fuel + 1, c :: cs =>
    if sep ≠ [] && listStartsWith (c :: cs) sep then
      [] :: splitOnCharsF sep fuel (List.drop sep.length (c :: cs))
    else
      match splitOnCharsF sep fuel cs with
      | [] => [[c]]
      | t :: ts => (c :: t) :: ts

/-- Python `s.split(sep)` for a non-empty literal separator `sep`: the
pieces between the non-overlapping occurrences of `sep`, scanned left to
right (`"bc".split("b") = ["", "c"]`, `"ab".split("b") = ["a", ""]`). -/
def splitOnStr (s sep : String) : List String :=
  if sep = "" then [s]
  else (splitOnCharsF sep.toList s.toList.length s.toList).map (fun cs => String.mk cs)

/-- Python `s.strip()` on the character list: drop leading and trailing
whitespace.  (`Char.isWhitespace` covers space, tab, CR and LF; the rarer
Unicode whitespace CPython also strips does not occur in this code.) -/
def trimChars (cs : List Char) : List Char :=
  ((cs.dropWhile Char.isWhitespace).reverse.dropWhile Char.isWhitespace).reverse

/-- Python `s.strip()`. -/
def strTrim (s : String) : String := String.mk (trimChars s.toList)

/-- The prompt-delimiter test used throughout `ssh2.py`:
`line.startswith('<SH-')`. -/
def isPrompt (line : String) : Bool := startsWithStr line "<SH-"

/-- `nums = [num for num, line in enumerate(data) if line.startswith('<SH-')]`
in `SSH2._parse`: the positions (counting from `i`) of the prompt lines of
the list, produced in increasing order. -/
def promptPositions : List String → Nat → List Nat
  | [], _ => []
  | line :: rest, i =>
    if isPrompt line then i :: promptPositions rest (i + 1)
    else promptPositions rest (i + 1)

/-- `[x.strip() for x in line.split(' Y') if x.strip()]` in `SSH2._parse`:
split on the literal separator `" Y"`, strip the pieces, keep the
non-empty ones. -/
def splitClean (line : String) : List String :=
  ((splitOnStr line " Y").map strTrim).filter (fun s => s ≠ "")

/-- The `for line in data` accumulation loop of `SSH2._parse`: pagination
marker lines (`'---- More ----'`) and prompt lines are skipped, every other
line contributes `splitClean line` to `ret` (via `ret.extend`). -/
def collectRet (data : List String) : List String :=
  data.foldl
    (fun acc line =>
      if line == "---- More ----" || isPrompt line then acc
      else acc ++ splitClean line)
    []

/-- `item = ret.pop(0); ret.insert(0, item.split('Aging')[1])` at the end of
`SSH2._parse`: popping from an empty list raises `IndexError`, and so does
taking index 1 of `item.split('Aging')` when `'Aging'` does not occur in
`item` (the split then has a single element). -/
def finishRet : List String → Except PyErr (List String)
  | [] => Except.error PyErr.indexError
  | item :: rest =>
    match (splitOnStr item "Aging").drop 1 with
    | [] => Except.error PyErr.indexError
    | second :: _ => Except.ok (second :: rest)

/-- `SSH2._parse(data)`.  `sorted(nums)` is modelled by
`List.insertionSort (· ≤ ·)`; `nums` is produced by `enumerate` in
increasing order, so the sort is the identity (see
`promptPositions_pairwise` below), exactly as in the Python code. -/
def _parse (data : List String) : Except PyErr (List String) :=
  let nums := promptPositions data 0
  if nums.length < 2 then Except.error PyErr.incompleteOutput
  else
    let bounded :=
      if nums.length > 2 then data.take ((List.insertionSort (· ≤ ·) nums).getD 1 0)
      else data
    finishRet (collectRet bounded)

/-- Worker for Python's no-separator `split`: `cur` holds the characters of
the token in progress, in reverse. -/
def pySplitAux : List Char → List Char → List (List Char)
  | [], cur => if cur.isEmpty then [] else [cur.reverse]
  | c :: cs, cur =>
    if c.isWhitespace then
      if cur.isEmpty then pySplitAux cs []
      else cur.reverse :: pySplitAux cs []
    else pySplitAux cs (c :: cur)

/-- Python `item.split()` with no separator argument: the maximal runs of
non-whitespace characters (no empty pieces). -/
def pySplit (s : String) : List String :=
  (pySplitAux s.toList []).map (fun cs => String.mk cs)

/-- A decimal digit string to `Nat`; `none` when the string is empty or
contains a non-digit character. -/
def digitsToNat? (cs : List Char) : Option Nat :=
  if cs = [] then none
  else
    cs.foldl
      (fun acc c =>
        match acc with
        | none => none
        | some n => if c.isDigit then some (10 * n + (c.toNat - 48)) else none)
      (some 0)

/-- Python `int(s)` for a string argument: surrounding whitespace is
stripped, then an optional sign followed by decimal digits.  `none` models
`ValueError`.  (Digit-grouping underscores, which CPython also accepts, are
not modelled; no input in this development uses them.) -/
def pyInt? (s : String) : Option Int :=
  match trimChars s.toList with
  | '-' :: rest => (digitsToNat? rest).map (fun n => -(n : Int))
  | '+' :: rest => (digitsToNat? rest).map (fun n => (n : Int))
  | cs => (digitsToNat? cs).map (fun n => (n : Int))

/-- `results[key].append(value)` on a `defaultdict(list)`, with the mapping
modelled as an association list in key-insertion order (Python dicts
preserve insertion order). -/
def addEntry : List (String × List String) → String → String → List (String × List String)
  | [], k, v => [(k, [v])]
  | (k', vs) :: rest, k, v =>
    if k' = k then (k', vs ++ [v]) :: rest
    else (k', vs) :: addEntry rest k v

/-- One iteration of the `for item in ret` loop of `SSH2.parse_output`:
`x = item.split()`; token counts `<= 3` are skipped non-fatally (the
`print('Invalid data: ', x)` branch); otherwise
`int(x[3].split('BAGG')[1])` is evaluated — `IndexError` when `'BAGG'`
does not occur in `x[3]`, `ValueError` when the piece after it is not an
integer literal — and the row is recorded when that value is `<= 48`. -/
def procLine (acc : List (String × List String)) (item : String) :
    Except PyErr (List (String × List String)) :=
  let x := pySplit item
  if x.length ≤ 3 then Except.ok acc
  else
    match (splitOnStr (x.getD 3 "") "BAGG").drop 1 with
    | [] => Except.error PyErr.indexError
    | t :: _ =>
      match pyInt? t with
      | none => Except.error PyErr.valueError
      | some n =>
        if n ≤ 48 then Except.ok (addEntry acc (x.getD 3 "") (x.getD 0 ""))
        else Except.ok acc

/-- `SSH2.parse_output` applied to the decoded, stripped, non-empty line
sequence (the list built by
`[x.strip().decode() for x in output.splitlines() if x.strip()]`):
`_parse` first, then the row loop; any exception escapes to the caller. -/
def parse_output_lines (data : List String) : Except PyErr (List (String × List String)) :=
  match _parse data with
  | Except.error e => Except.error e
  | Except.ok ret => ret.foldlM procLine []

/-- `[x.strip().decode() for x in output.splitlines() if x.strip()]`:
`splitlines` is modelled by splitting on `'\n'` (a `'\r'` of a `'\r\n'`
ending is removed by the subsequent strip), each line is stripped and the
empty ones are dropped. -/
def cleanLines (raw : String) : List String :=
  ((splitOnStr raw "\n").map strTrim).filter (fun s => s ≠ "")

/-- `SSH2.parse_output(output)` on the raw captured text. -/
def parse_output (raw : String) : Except PyErr (List (String × List String)) :=
  parse_output_lines (cleanLines raw)

/-- Byte strings (`bytes`) are modelled as `String`; all the byte literals
of `ssh2.py` are ASCII. -/
abbrev Bytes := String

/-- One `chan.recv(...)` event of a scripted channel: either a data chunk
is returned, or `socket.timeout` is raised. -/
inductive Ev where
  | chunk (data : Bytes)
  | tmo
  deriving DecidableEq, Repr

/-- An interactive channel, modelled by the script of its receive events.
`recv_ready()` is true exactly when the next event is a buffered chunk. -/
structure Chan where
  script : List Ev
  deriving DecidableEq, Repr

/-- `if self.chan.recv_ready(): data = self.chan.recv(self.buffersize)`:
when the next event is a buffered chunk, read it and replace `data`;
otherwise keep `data` and consume nothing. -/
def peekOne (d : Bytes) (rest : List Ev) : Bytes × List Ev :=
  match rest with
  | Ev.chunk d2 :: rest2 => (d2, rest2)
  | _ => (d, rest)

/-- Python `b' More ' in data`: the literal substring occurs exactly when
splitting on it produces more than one piece. -/
def hasMore (d : Bytes) : Bool := (splitOnStr d " More ").length != 1

/-- The `while True` receive loop of `SSH2._execute`.  A `tmo` event is a
`socket.timeout` raised by `recv`, caught by the surrounding handler which
returns the accumulated `results`; an exhausted script is a blocking
`recv` with nothing left to arrive, which also ends in `socket.timeout`.
A noise chunk (`b'\r\r\n'` or `b'*'` start) is skipped (`continue`); a
prompt chunk triggers the command send and an optional extra read, a
`' More '` chunk triggers a newline send and an optional extra read; a
zero-length chunk breaks the loop; anything else is appended. -/
def recvLoop : List Ev → Bytes → Bytes
  | [], acc => acc
  | Ev.tmo :: _, acc => acc
  | Ev.chunk d :: rest, acc =>
    if startsWithStr d "\r\r\n" || startsWithStr d "*" then recvLoop rest acc
    else
      let p1 := if startsWithStr d "<SH-" then peekOne d rest else (d, rest)
      let p2 := if hasMore p1.1 then peekOne p1.1 p1.2 else p1
      if p2.1.length = 0 then acc
      else recvLoop p2.2 (acc ++ p2.1)
termination_by evs _ => evs.length
decreasing_by
  · simp [List.length_cons]
  · have hpeek : ∀ (b : Bytes) (r : List Ev), (peekOne b r).2.length ≤ r.length := by
      intro b r
      unfold peekOne
      split
      · simp [List.length_cons]
      · exact Nat.le_refl _
    have h1 : (if startsWithStr d "<SH-" then peekOne d rest else (d, rest)).2.length ≤ rest.length := by
      split
      · exact hpeek d rest
      · exact Nat.le_refl _
    have h2 : (if hasMore (if startsWithStr d "<SH-" then peekOne d rest else (d, rest)).1 then
          peekOne (if startsWithStr d "<SH-" then peekOne d rest else (d, rest)).1
            (if startsWithStr d "<SH-" then peekOne d rest else (d, rest)).2
        else if startsWithStr d "<SH-" then peekOne d rest else (d, rest)).2.length ≤
        (if startsWithStr d "<SH-" then peekOne d rest else (d, rest)).2.length := by
      split <;> split <;> first | exact hpeek _ _ | exact Nat.le_refl _
    simp [List.length_cons]
    omega

/-- `SSH2._execute(command, timeout)`: run the receive loop starting from
an empty accumulator.  The `send` calls have no observable effect on a
scripted channel, so only the receive side is modelled; the
`except socket.timeout: pass` handler is folded into `recvLoop`. -/
def _execute (command : String) (c : Chan) : Bytes :=
  recvLoop c.script ""

/-- The outcome of `paramiko.SSHClient.connect(...)` followed by
`invoke_shell(...)` inside `SSH2.make_chan`: success, or one of the three
caught exception classes (`socket.error`,
`paramiko.AuthenticationException`, `paramiko.SSHException`). -/
inductive ConnectOutcome where
  | ok
  | sockErr
  | authErr
  | sshErr
  deriving DecidableEq, Repr

/-- The mutable state of an `SSH2` instance: `self.ssh` (whether a client
object has been constructed) and `self.chan`. -/
structure Session where
  ssh : Bool
  chan : Option Chan
  deriving DecidableEq, Repr

/-- A freshly constructed `SSH2` instance: `self.ssh = None`,
`self.chan = None`. -/
def initSession : Session := { ssh := false, chan := none }

/-- `SSH2.connected`: `self.chan is not None`. -/
def connected (s : Session) : Bool := s.chan.isSome

/-- `SSH2.make_chan`: construct the client, connect and open the shell
channel.  On any of the three caught exceptions the handler sets
`self.chan = None` and logs; the method returns `self.chan is not None`. -/
def make_chan (o : ConnectOutcome) (newChan : Chan) (s : Session) : Session × Bool :=
  let s1 : Session := { s with ssh := true }
  match o with
  | ConnectOutcome.ok => ({ s1 with chan := some newChan }, true)
  | _ => ({ s1 with chan := none }, false)

/-- `SSH2.execute(command)`: reconnect lazily when not connected, then run
`_execute`.  When the channel is still absent after the failed reconnect,
`self.chan.settimeout(timeout)` inside `_execute` raises `AttributeError`
(`'NoneType' object has no attribute 'settimeout'`), which no handler
catches. -/
def execute (o : ConnectOutcome) (newChan : Chan) (s : Session) (command : String) :
    Session × Except PyErr Bytes :=
  let s1 := if connected s then s else (make_chan o newChan s).1
  match s1.chan with
  | none => (s1, Except.error PyErr.attributeError)
  | some c => (s1, Except.ok (_execute command c))

/-- Equality of modelled outcomes (`Except`) is decidable, so that concrete
runs of the embedded code can be checked by evaluation. -/
instance instDecEqExcept {ε α : Type} [DecidableEq ε] [DecidableEq α] :
    DecidableEq (Except ε α)
  | Except.error a, Except.error b =>
    if h : a = b then Decidable.isTrue (by rw [h])
    else Decidable.isFalse (by intro hc; cases hc; exact h rfl)
  | Except.error _, Except.ok _ => Decidable.isFalse (by intro hc; cases hc)
  | Except.ok _, Except.error _ => Decidable.isFalse (by intro hc; cases hc)
  | Except.ok a, Except.ok b =>
    if h : a = b then Decidable.isTrue (by rw [h])
    else Decidable.isFalse (by intro hc; cases hc; exact h rfl)

/-! ## Helper lemmas about the embedded definitions -/

/-- Every position recorded by `promptPositions ls i` is at least `i`. -/
theorem promptPositions_le {ls : List String} {i x : Nat}
    (h : x ∈ promptPositions ls i) : i ≤ x := by
  induction ls generalizing i with
  | nil => simp [promptPositions] at h
  | cons l ls ih =>
    rw [promptPositions] at h
    split at h
    · rcases List.mem_cons.mp h with h1 | h1
      · omega
      · have := ih h1
        omega
    · have := ih h
      omega

/-- The positions recorded by `promptPositions` are strictly increasing
(`enumerate` yields them in order), so Python's `sorted(nums)` is the
identity on them. -/
theorem promptPositions_pairwise (ls : List String) (i : Nat) :
    (promptPositions ls i).Pairwise (· < ·) := by
  induction ls generalizing i with
  | nil => simp [promptPositions]
  | cons l ls ih =>
    rw [promptPositions]
    split
    · refine List.Pairwise.cons ?_ (ih (i + 1))
      intro x hx
      have := promptPositions_le hx
      omega
    · exact ih (i + 1)

/-- `promptPositions` is sorted with respect to `≤`. -/
theorem promptPositions_sorted (ls : List String) (i : Nat) :
    List.Sorted (· ≤ ·) (promptPositions ls i) :=
  (promptPositions_pairwise ls i).imp (fun h => Nat.le_of_lt h)

/-- A recorded position points at a prompt line of the list. -/
theorem promptPositions_mem {ls : List String} {i x : Nat}
    (h : x ∈ promptPositions ls i) :
    x - i < ls.length ∧ isPrompt (ls.getD (x - i) "") = true := by
  induction ls generalizing i with
  | nil => simp [promptPositions] at h
  | cons l ls ih =>
    rw [promptPositions] at h
    split at h
    case isTrue hp =>
      rcases List.mem_cons.mp h with h1 | h1
      · subst h1
        simp [hp]
      · have hle := promptPositions_le h1
        obtain ⟨ha, hb⟩ := ih h1
        have hx : x - i = (x - (i + 1)) + 1 := by omega
        rw [hx]
        constructor
        · simp only [List.length_cons]
          omega
        · simpa using hb
    case isFalse hp =>
      have hle := promptPositions_le h
      obtain ⟨ha, hb⟩ := ih h
      have hx : x - i = (x - (i + 1)) + 1 := by omega
      rw [hx]
      constructor
      · simp only [List.length_cons]
        omega
      · simpa using hb

/-- `promptPositions` records one position per line satisfying `isPrompt`:
its length is the number of prompt lines. -/
theorem promptPositions_length (ls : List String) (i : Nat) :
    (promptPositions ls i).length = (ls.filter (fun l => isPrompt l)).length := by
  induction ls generalizing i with
  | nil => rfl
  | cons l ls ih =>
    by_cases hp : isPrompt l
    · simp [promptPositions, List.filter_cons, hp, ih (i + 1)]
    · simp [promptPositions, List.filter_cons, hp, ih (i + 1)]

/-- Filtering `x < i` away from a list whose members are all at least `i`
leaves nothing. -/
theorem filter_lt_eq_nil {i : Nat} {L : List Nat} (h : ∀ x ∈ L, i ≤ x) :
    L.filter (fun x => x < i) = [] := by
  induction L with
  | nil => rfl
  | cons a L ih =>
    have ha : ¬ a < i := by
      have := h a (by simp)
      omega
    simp only [List.filter_cons, decide_eq_true_eq]
    rw [if_neg (by simpa using ha)]
    exact ih (fun x hx => h x (by simp [hx]))

/-- Truncating the line list truncates the recorded prompt positions. -/
theorem promptPositions_take (ls : List String) (n i : Nat) :
    promptPositions (ls.take n) i =
      (promptPositions ls i).filter (fun x => x < i + n) := by
  induction ls generalizing n i with
  | nil => simp [promptPositions]
  | cons l ls ih =>
    cases n with
    | zero =>
      rw [List.take_zero]
      symm
      exact filter_lt_eq_nil (fun x hx => by simpa using promptPositions_le hx)
    | succ m =>
      have harith : i + 1 + m = i + (m + 1) := by omega
      by_cases hp : isPrompt l
      · simp only [List.take_succ_cons, promptPositions, if_pos hp, List.filter_cons]
        rw [if_pos ?_]
        · rw [ih m (i + 1), harith]
        · simp
      · simp only [List.take_succ_cons, promptPositions, if_neg hp]
        rw [ih m (i + 1), harith]

/-- Taking one more element appends the element at that position. -/
theorem take_succ_getD {α : Type} (l : List α) (n : Nat) (d : α) (h : n < l.length) :
    l.take (n + 1) = l.take n ++ [l.getD n d] := by
  induction l generalizing n with
  | nil => simp at h
  | cons a l ih =>
    cases n with
    | zero => simp
    | succ m =>
      simp only [List.take_succ_cons, List.getD_cons_succ]
      rw [ih m (by simpa using h)]
      simp

/-- A trailing prompt line contributes nothing to `collectRet` (the loop
skips prompt lines). -/
theorem collectRet_append_prompt (data : List String) (p : String)
    (hp : isPrompt p = true) :
    collectRet (data ++ [p]) = collectRet data := by
  unfold collectRet
  rw [List.foldl_append]
  simp [hp]

/-- When fewer than two prompt positions are recorded, `_parse` raises
`OSError('The output of the command is not complete.')` and `parse_output`
propagates it. -/
theorem parse_output_lines_of_lt_two (data : List String)
    (h : (promptPositions data 0).length < 2) :
    parse_output_lines data = Except.error PyErr.incompleteOutput := by
  unfold parse_output_lines
  simp only [_parse]
  rw [if_pos h]

/-! ## The claims -/

/-- C1 counterexample: on the input of the claim — the valid line
`"AA-BB-CC-01 10 Learned XGE1/0/1 AGING"` followed by the malformed line
`"AA-BB-CC-02 10 Learned"` between two `<switch01>` prompt lines —
`parse_output` does not return the mapping `XGE1/0/1 ↦ ["AA-BB-CC-01"]`
the claim states. -/
theorem claim1_counterexample :
    parse_output "<switch01>\nAA-BB-CC-01 10 Learned XGE1/0/1 AGING\nAA-BB-CC-02 10 Learned\n<switch01>" ≠
      Except.ok [("XGE1/0/1", ["AA-BB-CC-01"])] := by decide

/-- C1 (amended): on that input `parse_output` raises the incomplete-output
error (`OSError`), because the prompt pattern the code looks for is the
literal `'<SH-'` start and `<switch01>` does not match it, so no prompt
delimiter at all is found. -/
theorem claim1_theorem :
    parse_output "<switch01>\nAA-BB-CC-01 10 Learned XGE1/0/1 AGING\nAA-BB-CC-02 10 Learned\n<switch01>" =
      Except.error PyErr.incompleteOutput := by decide

/-- C2: whenever the cleaned line sequence contains fewer than two lines
matching the shell-prompt pattern, `parse_output` fails with the
incomplete-output error rather than returning a result. -/
theorem claim2_theorem (data : List String)
    (h : (data.filter (fun l => isPrompt l)).length < 2) :
    parse_output_lines data = Except.error PyErr.incompleteOutput := by
  apply parse_output_lines_of_lt_two
  rw [promptPositions_length]
  exact h

/-- C2 witness: a capture with no prompt line at all. -/
theorem claim2_witness :
    parse_output_lines ["MAC ADDR table banner"] = Except.error PyErr.incompleteOutput :=
  claim2_theorem ["MAC ADDR table banner"] (by decide)

/-- C3 counterexample: a line sequence with exactly one prompt-pattern line,
on which `parse_output` raises the incomplete-output error — the claim says
a single match is acceptable and parsing proceeds, but `len(nums) < 2`
rejects one match exactly like zero matches. -/
theorem claim3_counterexample :
    (["<SH-SW1>"].filter (fun l => isPrompt l)).length = 1 ∧
    parse_output_lines ["<SH-SW1>"] = Except.error PyErr.incompleteOutput := by decide

/-- C3 (amended): a line sequence with exactly one prompt-pattern line also
fails with the incomplete-output error; the code accepts only two or more
prompt delimiters (no warning-and-continue path exists). -/
theorem claim3_theorem (data : List String)
    (h : (data.filter (fun l => isPrompt l)).length = 1) :
    parse_output_lines data = Except.error PyErr.incompleteOutput := by
  apply parse_output_lines_of_lt_two
  rw [promptPositions_length]
  omega

/-- C3 witness: a one-prompt capture cut short. -/
theorem claim3_witness :
    parse_output_lines ["<SH-SW1>", "0001-0203-0405 10 Learned BAGG1 AGING"] =
      Except.error PyErr.incompleteOutput :=
  claim3_theorem ["<SH-SW1>", "0001-0203-0405 10 Learned BAGG1 AGING"] (by decide)

/-- C4: a capture whose line sequence contains three or more
prompt-delimiter lines parses exactly like the capture truncated at the
second prompt delimiter — the lines up to and including the second prompt
line, i.e. the first complete command cycle — so a duplicated execution in
one capture parses identically to a single execution.  The position of the
second prompt line is `(promptPositions data 0).getD 1 0` (the recorded
positions are strictly increasing). -/
theorem claim4_theorem (data : List String)
    (h : 3 ≤ (data.filter (fun l => isPrompt l)).length) :
    parse_output_lines data =
      parse_output_lines (data.take ((promptPositions data 0).getD 1 0 + 1)) := by
  have hlen : 3 ≤ (promptPositions data 0).length := by
    rw [promptPositions_length]
    exact h
  rcases hnum : promptPositions data 0 with _ | ⟨a, _ | ⟨b, _ | ⟨c, rest⟩⟩⟩
  · rw [hnum] at hlen
    simp at hlen
  · rw [hnum] at hlen
    simp at hlen
  · rw [hnum] at hlen
    simp at hlen
  · have hpw := promptPositions_pairwise data 0
    rw [hnum] at hpw
    have hab : a < b := (List.pairwise_cons.mp hpw).1 b (by simp)
    have hbrest : ∀ x ∈ c :: rest, b < x :=
      (List.pairwise_cons.mp (List.pairwise_cons.mp hpw).2).1
    have hsort : List.insertionSort (· ≤ ·) (a :: b :: c :: rest) = a :: b :: c :: rest := by
      rw [← hnum]
      exact List.Sorted.insertionSort_eq (promptPositions_sorted data 0)
    have htrunc : promptPositions (data.take (b + 1)) 0 = [a, b] := by
      rw [promptPositions_take, hnum]
      simp only [Nat.zero_add, List.filter_cons]
      rw [if_pos (by simp only [decide_eq_true_eq]; omega)]
      rw [if_pos (by simp only [decide_eq_true_eq]; omega)]
      rw [if_neg (by simp only [decide_eq_true_eq]; have := hbrest c (by simp); omega)]
      rw [filter_lt_eq_nil (fun x hx => by have := hbrest x (by simp [hx]); omega)]
    have hb_mem : b ∈ promptPositions data 0 := by
      rw [hnum]
      simp
    have hbp := promptPositions_mem hb_mem
    have hblt : b < data.length := by simpa using hbp.1
    have hbprompt : isPrompt (data.getD b "") = true := by simpa using hbp.2
    have hcoll : collectRet (data.take (b + 1)) = collectRet (data.take b) := by
      rw [take_succ_getD data b "" hblt]
      exact collectRet_append_prompt _ _ hbprompt
    have hparse : _parse data = _parse (data.take (b + 1)) := by
      have hC1 : ¬ ((a :: b :: c :: rest).length < 2) := by
        simp only [List.length_cons]
        omega
      have hC2 : (a :: b :: c :: rest).length > 2 := by
        simp only [List.length_cons]
        omega
      have hC3 : ¬ (([a, b] : List Nat).length < 2) := by
        simp only [List.length_cons, List.length_nil]
        omega
      have hC4 : ¬ (([a, b] : List Nat).length > 2) := by
        simp only [List.length_cons, List.length_nil]
        omega
      simp only [_parse, hnum, htrunc, hsort]
      simp only [if_neg hC1, if_pos hC2, if_neg hC3, if_neg hC4]
      simp only [List.getD_cons_succ, List.getD_cons_zero]
      rw [hcoll]
    simp only [List.getD_cons_succ, List.getD_cons_zero]
    unfold parse_output_lines
    rw [hparse]

/-- C4 witness: a capture with three prompt lines — a re-executed command
cycle following the first complete one — parses like its truncation after
the second prompt line (position 2, so the first three lines). -/
theorem claim4_witness :
    parse_output_lines ["<SH-SW1>", "column header", "<SH-SW1>", "column header", "<SH-SW1>"] =
      parse_output_lines
        (["<SH-SW1>", "column header", "<SH-SW1>", "column header", "<SH-SW1>"].take 3) :=
  claim4_theorem ["<SH-SW1>", "column header", "<SH-SW1>", "column header", "<SH-SW1>"]
    (by decide)

/-- C5 counterexample: the data line `"AA-BB 10 Learned BAGG7"` has four
tokens, not the claimed required five, yet it contributes the row
`BAGG7 ↦ AA-BB` to the result — the arity check is `len(x) <= 3`, not
`len(x) == 5`. -/
theorem claim5_counterexample :
    (pySplit "AA-BB 10 Learned BAGG7").length = 4 ∧
    parse_output "<SH-SW1>\nAgingM\nAA-BB 10 Learned BAGG7\n<SH-SW1>" =
      Except.ok [("BAGG7", ["AA-BB"])] := by decide

/-- C5 (amended): a cleaned data line is dropped by the arity check exactly
when whitespace-splitting yields at most three tokens; any line with four
or more tokens passes the check (an exact five-field schema is not
enforced). The theorem is the universally valid half: at most three tokens
means the line contributes nothing and causes no error. -/
theorem claim5_theorem (acc : List (String × List String)) (item : String)
    (h : (pySplit item).length ≤ 3) :
    procLine acc item = Except.ok acc := by
  simp only [procLine]
  rw [if_pos h]

/-- C5 witness: the malformed three-token line of the spec's own example is
skipped without contributing a row. -/
theorem claim5_witness :
    procLine [] "AA-BB-CC-02 10 Learned" = Except.ok [] :=
  claim5_theorem [] "AA-BB-CC-02 10 Learned" (by decide)

/-- C6 counterexample: a row whose derived numeral is `0` — one below the
claimed inclusive lower bound `1` — is nevertheless included: the code only
checks `int(x[3].split('BAGG')[1]) <= 48` and has no lower bound. -/
theorem claim6_counterexample :
    pyInt? ((splitOnStr "BAGG0" "BAGG").getD 1 "") = some 0 ∧
    parse_output "<SH-SW1>\nAgingM\nAA-CC 10 Learned BAGG0 AGING\n<SH-SW1>" =
      Except.ok [("BAGG0", ["AA-CC"])] := by decide

/-- C6 (amended): for a row that passes the arity check and whose fourth
token yields a numeral `n` after `'BAGG'`, the row is included exactly when
`n ≤ 48`: `49` is excluded, but `0` (and any smaller value) is included —
the range predicate has no lower bound. -/
theorem claim6_theorem (acc : List (String × List String)) (item : String) (n : Int)
    (h1 : ¬ (pySplit item).length ≤ 3)
    (h2 : 2 ≤ (splitOnStr ((pySplit item).getD 3 "") "BAGG").length)
    (h3 : pyInt? ((splitOnStr ((pySplit item).getD 3 "") "BAGG").getD 1 "") = some n) :
    procLine acc item =
      (if n ≤ 48 then
        Except.ok (addEntry acc ((pySplit item).getD 3 "") ((pySplit item).getD 0 ""))
      else Except.ok acc) := by
  simp only [procLine]
  rw [if_neg h1]
  rcases hsp : splitOnStr ((pySplit item).getD 3 "") "BAGG" with _ | ⟨p0, _ | ⟨p1, ps⟩⟩
  · rw [hsp] at h2
    simp at h2
  · rw [hsp] at h2
    simp at h2
  · rw [hsp] at h3
    simp only [List.getD_cons_succ, List.getD_cons_zero] at h3
    simp only [List.drop_succ_cons, List.drop_zero]
    rw [h3]

/-- C6 witness: the boundary rows — `BAGG48` (at the bound, included),
`BAGG49` (one above, excluded) and `BAGG0` (one below the claimed lower
bound, still included). -/
theorem claim6_witness :
    procLine [] "AA-BB-CC-01 10 Learned BAGG48 AGING" =
      Except.ok [("BAGG48", ["AA-BB-CC-01"])] ∧
    procLine [] "AA-BB-CC-01 10 Learned BAGG49 AGING" = Except.ok [] ∧
    procLine [] "AA-BB-CC-01 10 Learned BAGG0 AGING" =
      Except.ok [("BAGG0", ["AA-BB-CC-01"])] :=
  ⟨claim6_theorem [] "AA-BB-CC-01 10 Learned BAGG48 AGING" 48 (by decide) (by decide) (by decide),
   claim6_theorem [] "AA-BB-CC-01 10 Learned BAGG49 AGING" 49 (by decide) (by decide) (by decide),
   claim6_theorem [] "AA-BB-CC-01 10 Learned BAGG0 AGING" 0 (by decide) (by decide) (by decide)⟩

/-- C7 counterexample: a whole-parse abort caused by one line.  The capture
contains the five-token line `"AA-DD 10 Learned XGE1/0/1 AGING"` whose
fourth token has no `'BAGG'` numeric suffix; `parse_output` raises
`IndexError` instead of logging and skipping the line. -/
theorem claim7_counterexample :
    parse_output "<SH-SW1>\nAgingM\nAA-DD 10 Learned XGE1/0/1 AGING\n<SH-SW1>" =
      Except.error PyErr.indexError := by decide

/-- C7 (amended): only the arity failure (at most three tokens) is handled
non-fatally; a retained line with at least four tokens whose fourth token
does not contain `'BAGG'` makes `x[3].split('BAGG')[1]` raise `IndexError`,
which aborts the whole parse. -/
theorem claim7_theorem (acc : List (String × List String)) (item : String)
    (h1 : ¬ (pySplit item).length ≤ 3)
    (h2 : (splitOnStr ((pySplit item).getD 3 "") "BAGG").length = 1) :
    procLine acc item = Except.error PyErr.indexError := by
  simp only [procLine]
  rw [if_neg h1]
  rcases hsp : splitOnStr ((pySplit item).getD 3 "") "BAGG" with _ | ⟨p0, ps⟩
  · rw [hsp] at h2
    simp at h2
  · have hps : ps = [] := by
      rw [hsp] at h2
      simpa using h2
    subst hps
    simp only [List.drop_succ_cons, List.drop_zero]

/-- C7 witness: the per-line `IndexError` on a port identifier without a
`'BAGG'` suffix. -/
theorem claim7_witness :
    procLine [] "AA-DD 10 Learned XGE1/0/1 AGING" = Except.error PyErr.indexError :=
  claim7_theorem [] "AA-DD 10 Learned XGE1/0/1 AGING" (by decide) (by decide)

/-- C10: two captures that pass the two-delimiter check yet make `parse`
raise `IndexError` at the public interface: one whose delimited region
retains no data line (`ret.pop(0)` on an empty list), and one whose first
retained line `"hello world"` does not contain `"Aging"`
(`item.split('Aging')[1]` out of range). -/
theorem claim10_theorem :
    parse_output "<SH-SW1>\n<SH-SW1>" = Except.error PyErr.indexError ∧
    parse_output "<SH-SW1>\nhello world\n<SH-SW1>" = Except.error PyErr.indexError := by
  decide

/-- C8 counterexample: on a fresh session whose connect attempt fails with a
socket error, `execute` raises `AttributeError` past the caller boundary
(`self.chan.settimeout` on `None`) — the failure does not stay inside the
driver. -/
theorem claim8_counterexample :
    (execute ConnectOutcome.sockErr (Chan.mk []) initSession "dis mac-address").2 =
      Except.error PyErr.attributeError := by decide

/-- C8 (amended): a failed connect leaves the channel absent (`make_chan`
stores `None` and returns false, so `connected` is false) and a subsequent
`execute` does attempt reconnection — when that reconnect succeeds, the
command runs; but when it fails too, `execute` raises `AttributeError`
from the absent channel instead of containing the failure. -/
theorem claim8_theorem (o : ConnectOutcome) (c : Chan) (s : Session) (cmd : String)
    (hfail : o ≠ ConnectOutcome.ok) (habs : s.chan = none) :
    (make_chan o c s).1.chan = none ∧
    (make_chan o c s).2 = false ∧
    connected (make_chan o c s).1 = false ∧
    (execute o c s cmd).2 = Except.error PyErr.attributeError ∧
    (execute ConnectOutcome.ok c s cmd).2 = Except.ok (_execute cmd c) := by
  cases o with
  | ok => exact absurd rfl hfail
  | sockErr => simp [make_chan, execute, connected, habs]
  | authErr => simp [make_chan, execute, connected, habs]
  | sshErr => simp [make_chan, execute, connected, habs]

/-- C8 witness: a fresh session and a socket-level connect failure. -/
theorem claim8_witness :
    (make_chan ConnectOutcome.sockErr (Chan.mk []) initSession).1.chan = none ∧
    (make_chan ConnectOutcome.sockErr (Chan.mk []) initSession).2 = false ∧
    connected (make_chan ConnectOutcome.sockErr (Chan.mk []) initSession).1 = false ∧
    (execute ConnectOutcome.sockErr (Chan.mk []) initSession "dis arp").2 =
      Except.error PyErr.attributeError ∧
    (execute ConnectOutcome.ok (Chan.mk []) initSession "dis arp").2 =
      Except.ok (_execute "dis arp" (Chan.mk [])) :=
  claim8_theorem ConnectOutcome.sockErr (Chan.mk []) initSession "dis arp" (by decide) rfl

/-- C9: the receive loop of `_execute` returns exactly the bytes
accumulated so far in both terminal cases — a receive that raises the
timeout exception, and a receive that returns a zero-length chunk — and in
particular an `_execute` whose first receive terminates returns empty
bytes; no exception escapes (`recvLoop` is total and returns `Bytes`, the
`socket.timeout` handler being folded into it), and the timeout case adds
nothing to the accumulator. -/
theorem claim9_theorem (evs : List Ev) (acc : Bytes) (cmd : String) :
    recvLoop (Ev.tmo :: evs) acc = acc ∧
    recvLoop (Ev.chunk "" :: evs) acc = acc ∧
    _execute cmd (Chan.mk (Ev.tmo :: evs)) = "" ∧
    _execute cmd (Chan.mk (Ev.chunk "" :: evs)) = "" := by
  have htmo : ∀ a : Bytes, recvLoop (Ev.tmo :: evs) a = a := by
    intro a
    simp [recvLoop]
  have hzero : ∀ a : Bytes, recvLoop (Ev.chunk "" :: evs) a = a := by
    intro a
    rw [recvLoop]
    have h1 : (startsWithStr "" "\r\r\n" || startsWithStr "" "*") = false := by decide
    have h2 : startsWithStr "" "<SH-" = false := by decide
    have h3 : hasMore "" = false := by decide
    rw [h1]
    simp only [Bool.false_eq_true, if_false, h2, h3]
    rfl
  exact ⟨htmo acc, hzero acc, htmo "", hzero ""⟩

end SSH2
